import Mathlib

/-!
Shallow embedding of the lead-capture and quotation front-end (Main.py):
input validation helpers, the Clientify contact reconciler, and the
decision logic of the save, create_presupuesto, presupuesto_details and
confirm_presupuesto routes.  Remote calls (Odoo RPC, Clientify REST,
VIES SOAP) are modelled by explicit outcome parameters: a call either
returns a response with a status code and a body, or raises, and the
embedding records which handlers catch what.  Python strings are
modelled as Lean strings or lists of characters; Python None / falsy
values as Option; an uncaught Python exception as Except.error.
-/

namespace BaderApp

/-! Configuration constants, using the default values of the environment
block at the top of Main.py. -/

def TAG_NAME : String := "Expodental-2026"
def SALES_TEAM_ID : Nat := 22
def PRICELIST_ORDER_ID : Nat := 48
def PRICELIST_MAYORISTA_ID : Nat := 32
def PRICELIST_DEFAULT_ID : Nat := 33
def TAG_MAYORISTA_ID : Nat := 2
def TAG_CLINICA_DENTAL_ID : Nat := 3
def TAG_LABORATORIO_ID : Nat := 4
def TAG_ESTUDIANTE_ID : Nat := 5
def TAG_OTROS_ID : Nat := 15
def MANDATORY_TAG_IDS : List Nat := [319, 403]
def WAREHOUSE_ID : Nat := 19

/-! Python str.strip: remove leading and trailing whitespace.  The
whitespace characters of interest are the ASCII ones. -/

def isPySpace (c : Char) : Bool :=
  c = ' ' || c = '\t' || c = '\n' || c = '\r' || c = Char.ofNat 11 || c = Char.ofNat 12

/-- Remove trailing characters satisfying isPySpace. -/
def dropTrail : List Char → List Char
  | [] => []
  | a :: t =>
    match dropTrail t with
    | [] => if isPySpace a then [] else [a]
    | r :: rs => a :: r :: rs

def pyStripL (l : List Char) : List Char :=
  dropTrail (l.dropWhile isPySpace)

def pyStrip (s : String) : String :=
  ⟨pyStripL s.data⟩

/-- Python str.lower, character by character (the inputs of interest
are ASCII). -/
def pyLower (s : String) : String :=
  ⟨s.data.map Char.toLower⟩

/-! markupsafe.escape replaces the five HTML special characters by
entities; sanitize_string (Main.py lines 98-102) strips the input and
escapes the result, mapping falsy input to the empty string. -/

def ampEnt : List Char := ['&', 'a', 'm', 'p', ';']
def ltEnt : List Char := ['&', 'l', 't', ';']
def gtEnt : List Char := ['&', 'g', 't', ';']
def quotEnt : List Char := ['&', '#', '3', '4', ';']
def aposEnt : List Char := ['&', '#', '3', '9', ';']

def entities : List (List Char) := [ampEnt, ltEnt, gtEnt, quotEnt, aposEnt]

def escapeChar (c : Char) : List Char :=
  if c = '&' then ampEnt
  else if c = '<' then ltEnt
  else if c = '>' then gtEnt
  else if c = '"' then quotEnt
  else if c = Char.ofNat 39 then aposEnt
  else [c]

def escapeL : List Char → List Char
  | [] => []
  | c :: cs => escapeChar c ++ escapeL cs

def sanitize_string (value : Option String) : String :=
  match value with
  | none => ""
  | some s => if s = "" then "" else ⟨escapeL (pyStripL s.data)⟩

/-- The four HTML special characters that must never appear raw in
escaped output (the fifth, the ampersand, may appear only as the head
of an entity). -/
def rawSpecials : List Char := ['<', '>', '"', Char.ofNat 39]

/-- A character list is escape-safe when it is a concatenation of
plain characters (not an ampersand, not a raw special) and complete
escape entities.  This is the structural reading of: no HTML special
character appears unescaped. -/
inductive EscapedSafe : List Char → Prop where
  | nil : EscapedSafe []
  | plain (c : Char) (l : List Char) :
      c ≠ '&' → c ∉ rawSpecials → EscapedSafe l → EscapedSafe (c :: l)
  | ent (e l : List Char) : e ∈ entities → EscapedSafe l → EscapedSafe (e ++ l)

/-! Helper lemmas about dropWhile, dropTrail and escapeL. -/

theorem dropWhile_head_false (p : Char → Bool) (l : List Char) :
    ∀ c, (l.dropWhile p).head? = some c → p c = false := by
  induction l with
  | nil => intro c h; simp [List.dropWhile] at h
  | cons a t ih =>
    intro c h
    by_cases hp : p a
    · rw [List.dropWhile_cons, if_pos hp] at h
      exact ih c h
    · rw [List.dropWhile_cons, if_neg hp] at h
      simp only [List.head?_cons, Option.some.injEq] at h
      subst h
      exact Bool.eq_false_iff.mpr hp

theorem dropWhile_eq_self_of_head (p : Char → Bool) (l : List Char)
    (h : ∀ c, l.head? = some c → p c = false) : l.dropWhile p = l := by
  cases l with
  | nil => rfl
  | cons a t =>
    have := h a rfl
    rw [List.dropWhile_cons, if_neg (by simp [this])]

theorem dropTrail_getLast (l : List Char) :
    ∀ c, (dropTrail l).getLast? = some c → isPySpace c = false := by
  induction l with
  | nil => intro c h; simp [dropTrail] at h
  | cons a t ih =>
    intro c h
    unfold dropTrail at h
    split at h
    · split at h
      · simp at h
      · simp only [List.getLast?_singleton, Option.some.injEq] at h
        subst h
        simp_all
    · rename_i r rs heq
      rw [List.getLast?_cons_cons] at h
      exact ih c (heq ▸ h)

theorem dropTrail_head (l : List Char) :
    ∀ c, (dropTrail l).head? = some c → l.head? = some c := by
  cases l with
  | nil => intro c h; simp [dropTrail] at h
  | cons a t =>
    intro c h
    unfold dropTrail at h
    split at h
    · split at h
      · simp at h
      · simp only [List.head?_cons, Option.some.injEq] at h
        subst h; rfl
    · simp only [List.head?_cons, Option.some.injEq] at h
      subst h; rfl

theorem dropTrail_eq_self (l : List Char)
    (h : ∀ c, l.getLast? = some c → isPySpace c = false) : dropTrail l = l := by
  induction l with
  | nil => rfl
  | cons a t ih =>
    cases t with
    | nil =>
      have ha := h a (by simp)
      simp [dropTrail, ha]
    | cons b ts =>
      have ht : ∀ c, (b :: ts).getLast? = some c → isPySpace c = false := by
        intro c hc
        exact h c (by rw [List.getLast?_cons_cons]; exact hc)
      unfold dropTrail
      rw [ih ht]

theorem pyStripL_head (l : List Char) :
    ∀ c, (pyStripL l).head? = some c → isPySpace c = false := by
  intro c h
  exact dropWhile_head_false _ _ c (dropTrail_head _ c h)

theorem pyStripL_getLast (l : List Char) :
    ∀ c, (pyStripL l).getLast? = some c → isPySpace c = false := by
  intro c h
  exact dropTrail_getLast _ c h

theorem pyStripL_eq_self (l : List Char)
    (h1 : ∀ c, l.head? = some c → isPySpace c = false)
    (h2 : ∀ c, l.getLast? = some c → isPySpace c = false) : pyStripL l = l := by
  unfold pyStripL
  rw [dropWhile_eq_self_of_head _ _ h1]
  exact dropTrail_eq_self l h2

theorem escapeChar_ne_nil (c : Char) : escapeChar c ≠ [] := by
  unfold escapeChar
  split_ifs <;> simp [ampEnt, ltEnt, gtEnt, quotEnt, aposEnt]

theorem escapeChar_head (c : Char) (h : isPySpace c = false) :
    ∀ d, (escapeChar c).head? = some d → isPySpace d = false := by
  unfold escapeChar
  split_ifs <;> intro d hd <;>
    simp only [ampEnt, ltEnt, gtEnt, quotEnt, aposEnt, List.head?_cons,
      Option.some.injEq] at hd <;> subst hd
  · decide
  · decide
  · decide
  · decide
  · decide
  · exact h

theorem escapeChar_getLast (c : Char) (h : isPySpace c = false) :
    ∀ d, (escapeChar c).getLast? = some d → isPySpace d = false := by
  unfold escapeChar
  split_ifs <;> intro d hd <;>
    simp only [ampEnt, ltEnt, gtEnt, quotEnt, aposEnt, List.getLast?_cons_cons,
      List.getLast?_singleton, Option.some.injEq] at hd <;> subst hd
  · decide
  · decide
  · decide
  · decide
  · decide
  · exact h

theorem head_append_left (l₁ l₂ : List Char) (h : l₁ ≠ []) :
    (l₁ ++ l₂).head? = l₁.head? := by
  cases l₁ with
  | nil => exact absurd rfl h
  | cons a t => rfl

theorem getLast_append_right (l₁ l₂ : List Char) (h : l₂ ≠ []) :
    (l₁ ++ l₂).getLast? = l₂.getLast? := by
  rw [← List.head?_reverse, ← List.head?_reverse, List.reverse_append,
    head_append_left]
  simp [h]

theorem escapeL_eq_nil (l : List Char) : escapeL l = [] ↔ l = [] := by
  cases l with
  | nil => simp [escapeL]
  | cons c cs =>
    simp only [escapeL, List.append_eq_nil]
    constructor
    · intro hx
      exact absurd hx.1 (escapeChar_ne_nil c)
    · intro hx
      simp at hx

theorem escapeL_head (l : List Char)
    (h : ∀ c, l.head? = some c → isPySpace c = false) :
    ∀ d, (escapeL l).head? = some d → isPySpace d = false := by
  cases l with
  | nil => intro d hd; simp [escapeL] at hd
  | cons c cs =>
    intro d hd
    have hc := h c rfl
    rw [escapeL, head_append_left _ _ (escapeChar_ne_nil c)] at hd
    exact escapeChar_head c hc d hd

theorem escapeL_getLast (l : List Char)
    (h : ∀ c, l.getLast? = some c → isPySpace c = false) :
    ∀ d, (escapeL l).getLast? = some d → isPySpace d = false := by
  induction l with
  | nil => intro d hd; simp [escapeL] at hd
  | cons c cs ih =>
    intro d hd
    rw [escapeL] at hd
    cases cs with
    | nil =>
      simp only [escapeL, List.append_nil] at hd
      have hc := h c (by simp)
      exact escapeChar_getLast c hc d hd
    | cons b bs =>
      have hne : escapeL (b :: bs) ≠ [] := by
        rw [Ne, escapeL_eq_nil]
        simp
      rw [getLast_append_right _ _ hne] at hd
      refine ih ?_ d hd
      intro x hx
      exact h x (by rw [List.getLast?_cons_cons]; exact hx)

theorem escapeL_safe (l : List Char) : EscapedSafe (escapeL l) := by
  induction l with
  | nil => exact .nil
  | cons c cs ih =>
    rw [escapeL]
    unfold escapeChar
    split_ifs with h1 h2 h3 h4 h5
    · exact .ent _ _ (by simp [entities]) ih
    · exact .ent _ _ (by simp [entities]) ih
    · exact .ent _ _ (by simp [entities]) ih
    · exact .ent _ _ (by simp [entities]) ih
    · exact .ent _ _ (by simp [entities]) ih
    · refine .plain c _ h1 ?_ ih
      simp only [rawSpecials, List.mem_cons, List.not_mem_nil, or_false]
      push_neg
      exact ⟨h2, h3, h4, h5⟩

theorem escapedSafe_no_raw (l : List Char) (h : EscapedSafe l) :
    ∀ c, c ∈ rawSpecials → c ∉ l := by
  induction h with
  | nil => intro c _ hx; simp at hx
  | plain d l hne hnotin hl ih =>
    intro c hc hx
    rcases List.mem_cons.mp hx with rfl | hx2
    · exact hnotin hc
    · exact ih c hc hx2
  | ent e l he hl ih =>
    intro c hc hx
    rcases List.mem_append.mp hx with hx1 | hx2
    · simp only [entities, List.mem_cons, List.not_mem_nil, or_false] at he
      simp only [rawSpecials, List.mem_cons, List.not_mem_nil, or_false] at hc
      rcases he with rfl | rfl | rfl | rfl | rfl <;>
        rcases hc with rfl | rfl | rfl | rfl <;>
        exact absurd hx1 (by decide)
    · exact ih c hc hx2

/-- C8: for every input string, trimming the output of sanitize_string
changes nothing, the output is a concatenation of non-special plain
characters and complete escape entities (so no HTML special character
of the input appears unescaped), the output contains no raw special
character at all, and empty or absent input yields the empty string. -/
theorem C8_sanitize_string (value : Option String) :
    pyStrip (sanitize_string value) = sanitize_string value
  ∧ EscapedSafe (sanitize_string value).data
  ∧ (∀ c, c ∈ rawSpecials → c ∉ (sanitize_string value).data)
  ∧ sanitize_string none = "" ∧ sanitize_string (some "") = "" := by
  have hsafe : EscapedSafe (sanitize_string value).data := by
    match value with
    | none => exact .nil
    | some s =>
      simp only [sanitize_string]
      split_ifs with h
      · exact .nil
      · exact escapeL_safe _
  refine ⟨?_, hsafe, fun c hc => escapedSafe_no_raw _ hsafe c hc, rfl, by simp [sanitize_string]⟩
  match value with
  | none => rfl
  | some s =>
    simp only [sanitize_string]
    split_ifs with h
    · rfl
    · show pyStrip ⟨escapeL (pyStripL s.data)⟩ = _
      unfold pyStrip
      refine congrArg String.mk ?_
      show pyStripL (escapeL (pyStripL s.data)) = escapeL (pyStripL s.data)
      exact pyStripL_eq_self _
        (escapeL_head _ (pyStripL_head s.data))
        (escapeL_getLast _ (pyStripL_getLast s.data))

/-- C8 witness: the guarantees evaluated at a concrete input that mixes
surrounding whitespace and special characters. -/
theorem C8_sanitize_string_witness :
    pyStrip (sanitize_string (some " a<b ")) = sanitize_string (some " a<b ")
  ∧ Char.ofNat 60 ∈ rawSpecials
  ∧ Char.ofNat 60 ∉ (sanitize_string (some " a<b ")).data := by
  have h := C8_sanitize_string (some " a<b ")
  exact ⟨h.1, by decide, h.2.2.1 (Char.ofNat 60) (by decide)⟩

/-! Clientify contact reconciler (Main.py lines 121-222).  An HTTP call
either returns a response (status code plus decoded body) or raises a
transport exception. -/

inductive ReqResult (α : Type) where
  | resp (status : Nat) (body : α)
  | exc
deriving DecidableEq

instance {ε α : Type} [DecidableEq ε] [DecidableEq α] : DecidableEq (Except ε α) :=
  fun a b =>
    match a, b with
    | .ok x, .ok y =>
      if h : x = y then .isTrue (by rw [h]) else .isFalse (by intro hx; cases hx; exact h rfl)
    | .ok _, .error _ => .isFalse (by intro hx; cases hx)
    | .error _, .ok _ => .isFalse (by intro hx; cases hx)
    | .error x, .error y =>
      if h : x = y then .isTrue (by rw [h]) else .isFalse (by intro hx; cases hx; exact h rfl)

structure Contact where
  id : Nat
  email : String
  tags : List String
deriving DecidableEq

structure ClientData where
  name : String
  email : String
  phone : String
  company : Option String
  customer_tag : Option String
deriving DecidableEq

def recognized_tags : List String :=
  ["mayorista", "laboratorio", "clinica_dental", "estudiante", "otros"]

def tipo_display_map (t : String) : Option String :=
  if t = "mayorista" then some "Mayorista"
  else if t = "laboratorio" then some "Laboratorio Dental"
  else if t = "clinica_dental" then some "Clinica Dental"
  else if t = "estudiante" then some "Estudiante de Odontologia"
  else if t = "otros" then some "Otros"
  else none

/-- What one call of create_or_update_client_in_clientify returned and
did: the returned pair (tag_reconhecida, client_id), the PATCH payload
(tag list and optional contact_type) when the update path ran, the POST
payload when the creation path ran, and whether a non-2xx response was
logged as an error. -/
structure UpsertOutcome where
  tag_reconhecida : Option String
  client_id : Option Nat
  patched : Option (List String × Option String)
  created : Option (List String × Option String)
  errorLogged : Bool
deriving DecidableEq

/-- Update path of the reconciler (Main.py lines 154-190): an exact
match was found.  The PATCH is always attempted; a requests exception
there is not caught. -/
def clientify_patch (client_data : ClientData) (m : Contact)
    (patchRes : ReqResult Unit) : Except Unit UpsertOutcome :=
  let tag0 := m.tags.find? (fun t => t ∈ recognized_tags)
  let novas1 := if "Expodental 2026" ∈ m.tags then m.tags else m.tags ++ ["Expodental 2026"]
  let step :=
    match client_data.customer_tag with
    | some t =>
      if t ≠ "" ∧ t ∉ novas1 ∧ t ∈ recognized_tags then (novas1 ++ [t], some t)
      else (novas1, tag0)
    | none => (novas1, tag0)
  let ctype :=
    match client_data.customer_tag with
    | some t => tipo_display_map t
    | none => none
  match patchRes with
  | .exc => .error ()
  | .resp pst _ =>
    .ok ⟨step.2, some m.id, some (step.1, ctype), none,
      if pst = 200 ∨ pst = 204 then false else true⟩

/-- Creation path of the reconciler (Main.py lines 192-222).  The POST
is always attempted; a requests exception there is not caught. -/
def clientify_create (client_data : ClientData)
    (createRes : ReqResult Nat) : Except Unit UpsertOutcome :=
  let base := [TAG_NAME, "Expodental 2026"]
  let step :=
    match client_data.customer_tag with
    | some t =>
      if t ≠ "" ∧ t ∈ recognized_tags then (t :: base, some t) else (base, none)
    | none => (base, none)
  let ctype :=
    match client_data.customer_tag with
    | some t => tipo_display_map t
    | none => none
  match createRes with
  | .exc => .error ()
  | .resp st cid =>
    if st = 200 ∨ st = 201 then .ok ⟨step.2, some cid, none, some (step.1, ctype), false⟩
    else .ok ⟨none, none, none, some (step.1, ctype), true⟩

/-- create_or_update_client_in_clientify (Main.py lines 121-222).  The
GET search call is the first thing executed; a requests exception there
is not caught either.  The update path is taken only when the search
returns status 200, a non-empty result list, and a case-insensitive
exact email match; every other case falls through to creation. -/
def create_or_update_client_in_clientify (enabled : Bool)
    (client_data : ClientData) (searchRes : ReqResult (List Contact))
    (patchRes : ReqResult Unit) (createRes : ReqResult Nat) :
    Except Unit UpsertOutcome :=
  if !enabled then
    .ok ⟨none, none, none, none, false⟩
  else
    match searchRes with
    | .exc => .error ()
    | .resp st results =>
      if st = 200 ∧ results ≠ [] then
        match results.find? (fun c => pyLower c.email = pyLower client_data.email) with
        | some m => clientify_patch client_data m patchRes
        | none => clientify_create client_data createRes
      else clientify_create client_data createRes

theorem clientify_patch_total (cd : ClientData) (m : Contact) (pst : Nat) :
    ∃ out, clientify_patch cd m (.resp pst ()) = .ok out := by
  unfold clientify_patch
  exact ⟨_, rfl⟩

theorem clientify_create_created (cd : ClientData) (cst : Nat) (cid : Nat) :
    ∃ out, clientify_create cd (.resp cst cid) = .ok out ∧ out.created ≠ none := by
  unfold clientify_create
  dsimp only
  split_ifs
  · exact ⟨_, rfl, by simp⟩
  · exact ⟨_, rfl, by simp⟩

theorem upsert_total_on_responses (cd : ClientData) (st : Nat)
    (results : List Contact) (pst cst cid : Nat) :
    ∃ out, create_or_update_client_in_clientify true cd (.resp st results)
      (.resp pst ()) (.resp cst cid) = .ok out := by
  unfold create_or_update_client_in_clientify
  simp only [Bool.not_true, Bool.false_eq_true, if_false]
  split_ifs with h
  · cases hf : results.find? (fun c => pyLower c.email = pyLower cd.email) with
    | some m => exact clientify_patch_total cd m pst
    | none => exact (clientify_create_created cd cst cid).imp (fun out ho => ho.1)
  · exact (clientify_create_created cd cst cid).imp (fun out ho => ho.1)

theorem recognized_ne_marker (t : String) (h : t ∈ recognized_tags) :
    t ≠ "" ∧ t ≠ "Expodental 2026" := by
  simp only [recognized_tags, List.mem_cons, List.not_mem_nil, or_false] at h
  rcases h with rfl | rfl | rfl | rfl | rfl <;> exact ⟨by decide, by decide⟩

theorem marker_mem_novas (tags : List String) :
    "Expodental 2026" ∈
      (if "Expodental 2026" ∈ tags then tags else tags ++ ["Expodental 2026"]) := by
  split_ifs with h
  · exact h
  · simp

def labContact : Contact := ⟨55, "lab@example.com", ["laboratorio"]⟩
def labClient : ClientData :=
  ⟨"Lab SL", "lab@example.com", "611111111", none, some "mayorista"⟩

/-- C3: for an existing matched contact tagged laboratorio and request
classification mayorista, the recognized tag returned is mayorista and
the patched tag list contains the event marker and mayorista; in
general the first recognized value among existing tags is remembered,
and the supplied classification replaces it exactly when it is
recognized and not already among the tags. -/
theorem C3_recognized_tag_resolution :
    (create_or_update_client_in_clientify true labClient (.resp 200 [labContact])
        (.resp 200 ()) (.resp 201 9)
      = .ok ⟨some "mayorista", some 55,
          some (["laboratorio", "Expodental 2026", "mayorista"], some "Mayorista"),
          none, false⟩)
  ∧ ∀ (cd : ClientData) (m : Contact) (results : List Contact) (pst cst cid : Nat)
      (t : String),
      cd.customer_tag = some t →
      results.find? (fun c => pyLower c.email = pyLower cd.email) = some m →
      ∃ out, create_or_update_client_in_clientify true cd (.resp 200 results)
          (.resp pst ()) (.resp cst cid) = .ok out
        ∧ (t ∈ recognized_tags → t ∉ m.tags →
            out.tag_reconhecida = some t ∧
            ∃ pt ct2, out.patched = some (pt, ct2) ∧ t ∈ pt ∧ "Expodental 2026" ∈ pt)
        ∧ (t ∉ recognized_tags ∨ t ∈ m.tags →
            out.tag_reconhecida = m.tags.find? (fun x => x ∈ recognized_tags)) := by
  constructor
  · decide
  · intro cd m results pst cst cid t hct hfind
    have hne : results ≠ [] := by
      intro hx; rw [hx] at hfind; simp at hfind
    unfold create_or_update_client_in_clientify
    simp only [Bool.not_true, Bool.false_eq_true, if_false]
    have hcc : (True ∧ results ≠ []) := ⟨trivial, hne⟩
    rw [if_pos hcc, hfind]
    unfold clientify_patch
    rw [hct]
    dsimp only
    by_cases hcond : (t ≠ "" ∧
        t ∉ (if "Expodental 2026" ∈ m.tags then m.tags
             else m.tags ++ ["Expodental 2026"]) ∧
        t ∈ recognized_tags)
    · rw [if_pos hcond]
      refine ⟨_, rfl, ?_, ?_⟩
      · intro h1 h2
        constructor
        · rfl
        · refine ⟨_, _, rfl, ?_, ?_⟩
          · exact List.mem_append_right _ (by simp)
          · exact List.mem_append_left _ (marker_mem_novas m.tags)
      · intro hcase
        exfalso
        rcases hcase with hnr | hmem
        · exact hnr hcond.2.2
        · refine hcond.2.1 ?_
          split_ifs with hmk
          · exact hmem
          · exact List.mem_append_left _ hmem
    · rw [if_neg hcond]
      refine ⟨_, rfl, ?_, ?_⟩
      · intro h1 h2
        exfalso
        have hm := recognized_ne_marker t h1
        refine hcond ⟨hm.1, ?_, h1⟩
        split_ifs with hmk
        · exact h2
        · intro hx
          rcases List.mem_append.mp hx with hx1 | hx2
          · exact h2 hx1
          · simp only [List.mem_singleton] at hx2
            exact hm.2 hx2
      · intro hcase
        rfl

def otrosContact : Contact := ⟨55, "lab@example.com", ["otros"]⟩

/-- C3 witness: the general resolution rule applied at a contact tagged
otros with a request classification mayorista. -/
theorem C3_recognized_tag_resolution_witness :
    ∃ out, create_or_update_client_in_clientify true labClient (.resp 200 [otrosContact])
        (.resp 204 ()) (.resp 201 9) = .ok out
      ∧ out.tag_reconhecida = some "mayorista" := by
  obtain ⟨out, h1, h2, h3⟩ :=
    C3_recognized_tag_resolution.2 labClient otrosContact [otrosContact] 204 201 9
      "mayorista" rfl (by decide)
  obtain ⟨ht, _⟩ := h2 (by decide) (by decide)
  exact ⟨out, h1, ht⟩

/-- C10: whenever the CRM email search returns a non-200 status, an
empty result set, or results with no exact case-insensitive email
match, the reconciler falls through to the creation path and POSTs a
new contact: a transient search failure is indistinguishable from
contact-not-found. -/
theorem C10_search_failure_creates (cd : ClientData) (st : Nat)
    (results : List Contact) (pst cst cid : Nat)
    (h : st ≠ 200 ∨ results = [] ∨
         results.find? (fun c => pyLower c.email = pyLower cd.email) = none) :
    create_or_update_client_in_clientify true cd (.resp st results)
        (.resp pst ()) (.resp cst cid)
      = clientify_create cd (.resp cst cid)
    ∧ ∃ out, clientify_create cd (.resp cst cid) = .ok out ∧ out.created ≠ none := by
  refine ⟨?_, clientify_create_created cd cst cid⟩
  unfold create_or_update_client_in_clientify
  simp only [Bool.not_true, Bool.false_eq_true, if_false]
  by_cases h200 : st = 200 ∧ results ≠ []
  · rw [if_pos h200]
    rcases h with hst | hres | hfind
    · exact absurd h200.1 hst
    · exact absurd hres h200.2
    · rw [hfind]
  · rw [if_neg h200]

/-- C10 witness: a 500 search response leads straight to contact
creation. -/
theorem C10_search_failure_creates_witness :
    create_or_update_client_in_clientify true labClient (.resp 500 [])
        (.resp 200 ()) (.resp 201 9)
      = clientify_create labClient (.resp 201 9)
    ∧ ∃ out, clientify_create labClient (.resp 201 9) = .ok out
        ∧ out.created ≠ none := by
  exact C10_search_failure_creates labClient 500 [] 200 201 9 (Or.inl (by decide))

/-! Order confirmation (Main.py lines 619-662): the CRM part of
confirm_presupuesto.  The contact upsert call at line 621 is NOT inside
a try block; the Valor Pedido custom-field PATCH (lines 624-650) is
inside a try block that catches every exception; the ERP action_confirm
call (lines 655-660) is inside its own try block. -/

structure ConfirmOutcome where
  upsert : Option UpsertOutcome
  valorAttempted : Bool
  crmIssueLogged : Bool
  confirmAttempted : Bool
  flashSuccess : Bool
  flashError : Bool
deriving DecidableEq

def valorStatusOk (r : ReqResult Unit) : Bool :=
  match r with
  | .resp st _ => st = 200 || st = 204
  | .exc => false

def confirm_presupuesto_sync (enabled : Bool) (client_info : ClientData)
    (searchRes : ReqResult (List Contact)) (patchRes : ReqResult Unit)
    (createRes : ReqResult Nat) (valorRes : ReqResult Unit)
    (erpConfirmOk : Bool) : Except Unit ConfirmOutcome :=
  if enabled then
    match create_or_update_client_in_clientify true client_info searchRes patchRes createRes with
    | .error e => .error e
    | .ok out =>
      let valorAttempted := out.client_id.isSome
      let valorIssue := if valorAttempted then !(valorStatusOk valorRes) else true
      .ok ⟨some out, valorAttempted, valorIssue || out.errorLogged, true,
        erpConfirmOk, !erpConfirmOk⟩
  else
    .ok ⟨none, false, false, true, erpConfirmOk, !erpConfirmOk⟩

def demoClient : ClientData :=
  ⟨"Ana Silva", "ana@example.com", "600000000", none, some "mayorista"⟩

/-- C1 counterexample: a transport exception inside the CRM contact
upsert (the requests.get search call raising) is one way the CRM
synchronization step can fail; it propagates out of confirm_presupuesto
uncaught, so the ERP action_confirm call is never attempted, even
though the ERP call itself would have succeeded. -/
theorem C1_counterexample :
    confirm_presupuesto_sync true demoClient .exc (.resp 200 ()) (.resp 201 7)
      (.resp 200 ()) true = .error () := rfl

/-- C1 amended: as long as the three contact-upsert HTTP calls return
responses (so CRM failures surface as non-2xx status codes, which the
code logs and swallows), any failure of the Valor Pedido update --
including a raised exception -- is caught and logged, the ERP
action_confirm call is always attempted, and success is flashed exactly
when that ERP call succeeds.  Only a transport exception inside the
contact upsert itself escapes (see the counterexample). -/
theorem C1_crm_failure_isolated (cd : ClientData) (st : Nat)
    (results : List Contact) (pst cst cid : Nat) (valorRes : ReqResult Unit)
    (erpOk : Bool) :
    ∃ o, confirm_presupuesto_sync true cd (.resp st results) (.resp pst ())
        (.resp cst cid) valorRes erpOk = .ok o
      ∧ o.confirmAttempted = true
      ∧ o.flashSuccess = erpOk
      ∧ o.flashError = !erpOk
      ∧ (valorStatusOk valorRes = false → o.crmIssueLogged = true) := by
  obtain ⟨out, hout⟩ := upsert_total_on_responses cd st results pst cst cid
  unfold confirm_presupuesto_sync
  rw [if_pos rfl, hout]
  refine ⟨_, rfl, rfl, rfl, rfl, ?_⟩
  intro hv
  dsimp only
  cases hc : out.client_id.isSome <;> simp [hv]

/-- C1 witness: every CRM call failing (500 search, 500 patch, 500
create, an exception in the Valor Pedido update) still lets the ERP
confirmation run and report success. -/
theorem C1_crm_failure_isolated_witness :
    ∃ o, confirm_presupuesto_sync true demoClient (.resp 500 []) (.resp 500 ())
        (.resp 500 0) .exc true = .ok o
      ∧ o.confirmAttempted = true
      ∧ o.flashSuccess = true
      ∧ o.crmIssueLogged = true := by
  obtain ⟨o, h1, h2, h3, h4, h5⟩ :=
    C1_crm_failure_isolated demoClient 500 [] 500 500 0 .exc true
  exact ⟨o, h1, h2, h3, h5 (by decide)⟩

/-! The save route (Main.py lines 338-440): tax-ID write rule, tag and
pricelist derivation, and the partner write targets. -/

/-- Python str.isalpha: non-empty and every character alphabetic. -/
def pyIsAlpha (l : List Char) : Bool :=
  l ≠ [] && l.all Char.isAlpha

/-- The value written to the vat field of res.partner (lines 403 and
421): the submitted string when it is truthy, at least 4 characters
long and its first two characters are alphabetic; otherwise False,
which clears the field (modelled as none). -/
def save_vat_value (vat : String) : Option String :=
  if vat.data ≠ [] ∧ 4 ≤ vat.data.length ∧ pyIsAlpha (vat.data.take 2) then some vat
  else none

/-- tag_mapping.get(customer_tag, TAG_OTROS_ID) (lines 375-384). -/
def tag_mapping_get (customer_tag : String) : Nat :=
  if customer_tag = "clinica_dental" then TAG_CLINICA_DENTAL_ID
  else if customer_tag = "laboratorio" then TAG_LABORATORIO_ID
  else if customer_tag = "estudiante" then TAG_ESTUDIANTE_ID
  else if customer_tag = "mayorista" then TAG_MAYORISTA_ID
  else if customer_tag = "otros" then TAG_OTROS_ID
  else TAG_OTROS_ID

/-- The tag list attached to the customer (line 390). -/
def save_tag_ids (customer_tag : String) : List Nat :=
  tag_mapping_get customer_tag :: MANDATORY_TAG_IDS

/-- The pricelist chosen for the customer (line 393). -/
def save_pricelist_id (customer_tag : String) : Nat :=
  if tag_mapping_get customer_tag = TAG_MAYORISTA_ID then PRICELIST_MAYORISTA_ID
  else PRICELIST_DEFAULT_ID

/-- Partner synchronisation at the end of save (lines 399-440): when
the search returned ids, one write call targets the whole id list and
the session stores the first id; otherwise a create happens and the
session stores the new id. -/
structure SaveWriteCall (α : Type) where
  targetIds : List Nat
  payload : α
deriving DecidableEq

def save_partner_write {α : Type} (existing_partner_ids : List Nat)
    (payload : α) (new_partner_id : Option Nat) :
    Option (SaveWriteCall α) × Option Nat :=
  match existing_partner_ids with
  | [] => (none, new_partner_id)
  | id0 :: rest => (some ⟨id0 :: rest, payload⟩, some id0)

/-- C2: the persisted tax ID equals the submitted string unchanged
exactly when the string is non-empty, at least 4 characters long, and
its first two characters are alphabetic; otherwise it is cleared.
In particular PT123456 is kept and 12345 is cleared. -/
theorem C2_vat_write_rule :
    (∀ vat : String, save_vat_value vat = some vat ↔
        (vat.data ≠ [] ∧ 4 ≤ vat.data.length ∧
         ∀ c ∈ vat.data.take 2, c.isAlpha))
  ∧ (∀ vat : String,
        ¬(vat.data ≠ [] ∧ 4 ≤ vat.data.length ∧ ∀ c ∈ vat.data.take 2, c.isAlpha) →
        save_vat_value vat = none)
  ∧ save_vat_value "PT123456" = some "PT123456"
  ∧ save_vat_value "12345" = none := by
  have key : ∀ vat : String,
      (vat.data ≠ [] ∧ 4 ≤ vat.data.length ∧ pyIsAlpha (vat.data.take 2)) ↔
      (vat.data ≠ [] ∧ 4 ≤ vat.data.length ∧ ∀ c ∈ vat.data.take 2, c.isAlpha) := by
    intro vat
    constructor
    · rintro ⟨h1, h2, h3⟩
      simp only [pyIsAlpha, Bool.and_eq_true, List.all_eq_true] at h3
      exact ⟨h1, h2, h3.2⟩
    · rintro ⟨h1, h2, h3⟩
      refine ⟨h1, h2, ?_⟩
      simp only [pyIsAlpha, Bool.and_eq_true, List.all_eq_true]
      refine ⟨?_, h3⟩
      have hx : vat.data.take 2 ≠ [] := by
        intro hx
        have hlen := congrArg List.length hx
        rw [List.length_take] at hlen
        simp only [List.length_nil] at hlen
        omega
      simp [hx]
  refine ⟨?_, ?_, by decide, by decide⟩
  · intro vat
    unfold save_vat_value
    split_ifs with h
    · constructor
      · intro _
        exact (key vat).mp h
      · intro _
        rfl
    · constructor
      · intro hx
        exact absurd hx (by simp)
      · intro hx
        exact absurd ((key vat).mpr hx) h
  · intro vat h
    unfold save_vat_value
    rw [if_neg fun hx => h ((key vat).mp hx)]

/-- C2 witness: a short string fails the rule and is cleared. -/
theorem C2_vat_write_rule_witness : save_vat_value "PT1" = none :=
  C2_vat_write_rule.2.1 "PT1" (by decide)

theorem tag_mayorista_iff (ct : String) :
    tag_mapping_get ct = TAG_MAYORISTA_ID ↔ ct = "mayorista" := by
  unfold tag_mapping_get TAG_CLINICA_DENTAL_ID TAG_LABORATORIO_ID
    TAG_ESTUDIANTE_ID TAG_MAYORISTA_ID TAG_OTROS_ID
  split_ifs with h1 h2 h3 h4 h5 <;> subst_vars <;> simp_all

/-- C4: classification mayorista yields the mayorista pricelist id on
the written customer record, and every other classification, unknown
and empty values included, yields the default pricelist id. -/
theorem C4_pricelist_rule (ct : String) :
    save_pricelist_id ct =
      if ct = "mayorista" then PRICELIST_MAYORISTA_ID else PRICELIST_DEFAULT_ID := by
  unfold save_pricelist_id
  by_cases h : ct = "mayorista"
  · rw [if_pos ((tag_mayorista_iff ct).mpr h), if_pos h]
  · rw [if_neg (fun hx => h ((tag_mayorista_iff ct).mp hx)), if_neg h]

/-- C9 (implicit): when the partner search returns more than one id,
the single write call targets every matched id with the same payload,
while the session stores only the first id. -/
theorem C9_multi_partner_write {α : Type} (ids : List Nat) (payload : α)
    (newId : Option Nat) (h : 1 < ids.length) :
    (save_partner_write ids payload newId).1 = some ⟨ids, payload⟩
    ∧ (save_partner_write ids payload newId).2 = ids.head? := by
  cases ids with
  | nil => simp at h
  | cons id0 rest => exact ⟨rfl, rfl⟩

/-- C9 witness: two matched partners 7 and 9 are both written; the
session keeps 7. -/
theorem C9_multi_partner_write_witness :
    (save_partner_write [7, 9] 0 none).1 = some ⟨[7, 9], 0⟩
    ∧ (save_partner_write [7, 9] 0 none).2 = [7, 9].head? :=
  C9_multi_partner_write [7, 9] 0 none (by decide)

/-! Fiscal-position derivation in create_presupuesto (Main.py lines
443-471).  In the non-ES branch the zeep Client is constructed first,
at line 460, OUTSIDE the try block that starts at line 461: the
constructor fetches the WSDL over the network, so a transport failure
there raises out of the handler uncaught.  Only the checkVat call at
line 462 is inside the try, whose except arm flashes a warning and
keeps the domestic position. -/

/-- Outcome of the VIES interaction in the non-ES branch: the client
construction at line 460 either raises (wsdlExc, uncaught) or
succeeds, and then checkVat either answers valid or invalid, or raises
(exc, caught by the except arm at line 468). -/
inductive ViesOutcome where
  | valid
  | invalid
  | exc
  | wsdlExc
deriving DecidableEq

structure FiscalResult where
  fiscal_position_id : Nat
  viesQueried : Bool
  warningFlashed : Bool
deriving DecidableEq

/-- The fiscal position chosen before creating the sale order:
ok none models the early redirect for a missing or too-short VAT;
error models an uncaught exception escaping the handler.  An ES
country code keeps the default position 1 without touching VIES
(either through the explicit Spanish-NIF branch or by falling through
both conditions); any other code constructs the VIES client (line 460,
outside the try: a raise there is uncaught) and queries it: valid
gives the intracommunity position 4, invalid or a checkVat exception
gives position 1 with a warning flash. -/
def create_presupuesto_fiscal (vat : List Char) (vies : ViesOutcome) :
    Except Unit (Option FiscalResult) :=
  if vat = [] ∨ vat.length < 3 then .ok none
  else
    let country_code := (vat.take 2).map Char.toUpper
    if country_code = ['E', 'S'] ∧ 2 < vat.length ∧ (vat.getD 2 ' ').isDigit then
      .ok (some ⟨1, false, false⟩)
    else if country_code ≠ ['E', 'S'] then
      match vies with
      | .wsdlExc => .error ()
      | .valid => .ok (some ⟨4, true, false⟩)
      | .invalid => .ok (some ⟨1, true, true⟩)
      | .exc => .ok (some ⟨1, true, true⟩)
    else .ok (some ⟨1, false, false⟩)

/-- C5 counterexample: for the non-domestic VAT FR999, a transport
failure while constructing the VIES client (the WSDL fetch at line
460, outside the try block) escapes the handler as an unhandled
fault, with no domestic fallback and no warning, falsifying the
claim that a lookup failure never yields an unhandled fault. -/
theorem C5_counterexample :
    create_presupuesto_fiscal "FR999".data .wsdlExc = .error () := rfl

/-- C5 amended: for every VAT of length at least 3, a domestic ES code
yields the domestic position 1 without querying VIES; any other code
queries VIES: a valid answer yields the intracommunity position 4, an
invalid answer or an exception raised by the checkVat call inside the
try block yields the domestic position 1 with a user-visible warning,
but a transport failure while constructing the VIES client (the WSDL
fetch, outside the try block) raises an unhandled fault. -/
theorem C5_fiscal_position (vat : List Char) (vies : ViesOutcome)
    (h3 : 3 ≤ vat.length) :
    ((vat.take 2).map Char.toUpper = ['E', 'S'] →
        create_presupuesto_fiscal vat vies = .ok (some ⟨1, false, false⟩))
  ∧ ((vat.take 2).map Char.toUpper ≠ ['E', 'S'] →
        (vies = .valid →
          create_presupuesto_fiscal vat vies = .ok (some ⟨4, true, false⟩))
      ∧ (vies = .invalid ∨ vies = .exc →
          create_presupuesto_fiscal vat vies = .ok (some ⟨1, true, true⟩))
      ∧ (vies = .wsdlExc →
          create_presupuesto_fiscal vat vies = .error ())) := by
  have hguard : ¬(vat = [] ∨ vat.length < 3) := by
    push_neg
    constructor
    · intro hx
      rw [hx] at h3
      simp at h3
    · omega
  unfold create_presupuesto_fiscal
  rw [if_neg hguard]
  dsimp only
  constructor
  · intro hes
    by_cases hd : (vat.take 2).map Char.toUpper = ['E', 'S'] ∧ 2 < vat.length ∧
        (vat.getD 2 ' ').isDigit
    · rw [if_pos hd]
    · rw [if_neg hd, if_neg (by simpa using hes)]
  · intro hes
    rw [if_neg (fun hx => hes hx.1), if_pos hes]
    refine ⟨?_, ?_, ?_⟩
    · rintro rfl
      rfl
    · rintro (rfl | rfl) <;> rfl
    · rintro rfl
      rfl

/-- C5 witness: a French VAT whose checkVat call raises inside the try
still yields the domestic position with a warning, and a Spanish NIF
keeps the domestic position without querying VIES. -/
theorem C5_fiscal_position_witness :
    create_presupuesto_fiscal "FR999".data .exc = .ok (some ⟨1, true, true⟩)
  ∧ create_presupuesto_fiscal "ES123".data .valid = .ok (some ⟨1, false, false⟩) := by
  have h1 := C5_fiscal_position "FR999".data .exc (by decide)
  have h2 := C5_fiscal_position "ES123".data .valid (by decide)
  exact ⟨(h1.2 (by decide)).2.1 (Or.inr rfl), h2.1 (by decide)⟩

/-! Quotation line addition (Main.py lines 511-550).  The quantity is
read with int(request.form.get(..., 1)): an absent field gives the
integer 1, a present field is parsed by int(), which raises ValueError
on non-numeric input and nothing catches it.  The price-override table
is loaded with its keys lower-cased (later duplicate keys overwriting
earlier ones, as in a Python dict) and looked up by the lower-cased,
stripped staff input code. -/

def digitsVal (l : List Char) : Int :=
  l.foldl (fun acc c => acc * 10 + ((c.toNat : Int) - 48)) 0

/-- Python int(string): optional surrounding whitespace, optional sign,
then decimal digits (digit-group underscores are not modelled). -/
def pyInt? (s : String) : Option Int :=
  match pyStripL s.data with
  | [] => none
  | c :: rest =>
    if c = '+' then
      if rest ≠ [] ∧ rest.all Char.isDigit then some (digitsVal rest) else none
    else if c = '-' then
      if rest ≠ [] ∧ rest.all Char.isDigit then some (-(digitsVal rest)) else none
    else if (c :: rest).all Char.isDigit then some (digitsVal (c :: rest)) else none

structure LineVals where
  order_id : Nat
  product_id : Nat
  product_uom_qty : Int
  price_unit : Option ℚ
deriving DecidableEq

inductive PostOutcome where
  | lineCreated (v : LineVals)
  | flashWarn
  | notFound
deriving DecidableEq

/-- The POST branch of presupuesto_details: parse the quantity (may
raise), check the code, look up the price override, resolve the
product (first search result wins) and create the sale order line. -/
def presupuesto_details_post (presupuesto_id : Nat)
    (codeField qtyField : Option String)
    (custom_prices : List (String × ℚ)) (product_ids : List Nat) :
    Except Unit PostOutcome :=
  let product_code := pyLower (pyStrip (codeField.getD ""))
  match (match qtyField with | none => some 1 | some s => pyInt? s) with
  | none => .error ()
  | some product_qty =>
    if product_code = "" then .ok .flashWarn
    else
      let lowered := custom_prices.map (fun kv => (pyLower kv.1, kv.2))
      let custom_price := (lowered.reverse.find? (fun kv => kv.1 = product_code)).map
        (fun kv => kv.2)
      match product_ids with
      | [] => .ok .notFound
      | pid :: _ => .ok (.lineCreated ⟨presupuesto_id, pid, product_qty, custom_price⟩)

/-- C6: the override lookup is case-insensitive: table entry p100 at
9.99 with staff input P100 and quantity 3 creates a line with unit
price 9.99 and quantity 3; and for any code with no override entry the
created line carries no unit price, so catalog pricing applies. -/
theorem C6_price_override :
    presupuesto_details_post 10 (some "P100") (some "3") [("p100", 999/100)] [42]
      = .ok (.lineCreated ⟨10, 42, 3, some (999/100)⟩)
  ∧ ∀ (opid : Nat) (codeField qtyField : Option String)
      (table : List (String × ℚ)) (pids : List Nat) (v : LineVals),
      (∀ kv ∈ table, pyLower kv.1 ≠ pyLower (pyStrip (codeField.getD ""))) →
      presupuesto_details_post opid codeField qtyField table pids = .ok (.lineCreated v) →
      v.price_unit = none := by
  constructor
  · rfl
  · intro opid codeField qtyField table pids v hno hpost
    unfold presupuesto_details_post at hpost
    dsimp only at hpost
    cases hq : (match qtyField with | none => some 1 | some s => pyInt? s) with
    | none => rw [hq] at hpost; cases hpost
    | some q =>
      rw [hq] at hpost
      split_ifs at hpost with hcode
      · cases hpost
      · have hfind :
            ((table.map (fun kv => (pyLower kv.1, kv.2))).reverse.find?
              (fun kv => kv.1 = pyLower (pyStrip (codeField.getD "")))) = none := by
          rw [List.find?_eq_none]
          intro kv hkv
          rw [List.mem_reverse, List.mem_map] at hkv
          obtain ⟨kv0, hkv0, rfl⟩ := hkv
          simpa using hno kv0 hkv0
        rw [hfind] at hpost
        cases pids with
        | nil => cases hpost
        | cons pid rest =>
          simp only [Option.map_none, Except.ok.injEq, PostOutcome.lineCreated.injEq] at hpost
          rw [← hpost]
          rfl

/-- C6 witness: a code absent from the override table yields a line
with no unit price. -/
theorem C6_price_override_witness :
    ∃ v, presupuesto_details_post 11 (some "Z9") (some "2") [("p100", 999/100)] [43]
        = .ok (.lineCreated v) ∧ v.price_unit = none := by
  refine ⟨⟨11, 43, 2, none⟩, by decide, ?_⟩
  exact C6_price_override.2 11 (some "Z9") (some "2") [("p100", 999/100)] [43]
    ⟨11, 43, 2, none⟩ (by decide) (by decide)

/-- C7 counterexample: a present but non-numeric quantity makes the
int() conversion raise an uncaught ValueError: the operation faults
instead of defaulting the quantity to 1. -/
theorem C7_counterexample :
    presupuesto_details_post 10 (some "P100") (some "abc") [] [42] = .error () := by
  decide

/-- C7 amended: the quantity defaults to 1 only when the quantity field
is absent, in which case the operation never faults; a present
non-numeric quantity raises an uncaught conversion error and the
operation faults. -/
theorem C7_qty_default :
    (∀ (opid : Nat) (codeField : Option String) (table : List (String × ℚ))
        (pids : List Nat),
      ∃ out, presupuesto_details_post opid codeField none table pids = .ok out
        ∧ ∀ v, out = .lineCreated v → v.product_uom_qty = 1)
  ∧ (∀ (opid : Nat) (codeField : Option String) (table : List (String × ℚ))
        (pids : List Nat) (s : String), pyInt? s = none →
      presupuesto_details_post opid codeField (some s) table pids = .error ()) := by
  constructor
  · intro opid codeField table pids
    unfold presupuesto_details_post
    dsimp only
    split_ifs with hcode
    · exact ⟨.flashWarn, rfl, fun v hv => by cases hv⟩
    · cases pids with
      | nil => exact ⟨.notFound, rfl, fun v hv => by cases hv⟩
      | cons pid rest =>
        refine ⟨_, rfl, fun v hv => ?_⟩
        cases hv
        rfl
  · intro opid codeField table pids s hs
    unfold presupuesto_details_post
    dsimp only
    rw [hs]

/-- C7 witness: absent quantity gives a line with quantity 1, and the
non-numeric string abc makes the operation fault. -/
theorem C7_qty_default_witness :
    (∃ out, presupuesto_details_post 12 (some "P100") none [] [44] = .ok out
      ∧ ∀ v, out = .lineCreated v → v.product_uom_qty = 1)
  ∧ presupuesto_details_post 12 (some "P100") (some "abc") [] [44] = .error () :=
  ⟨C7_qty_default.1 12 (some "P100") [] [44],
   C7_qty_default.2 12 (some "P100") [] [44] "abc" (by decide)⟩

end BaderApp
